import Mathlib

/-!
Verification of the command-assembly logic of `encode.py`, a batch video
transcoding helper.  The Python functions are embedded shallowly: the
string operations used by the script (`str.replace`, `str.split`,
`str.isdigit`, `int(...)`, `in`, `str.lower`) are modelled over `List Char`,
and the decision-dependent part of `encode_video` (lines 184-352 of
`src/encode.py`) is modelled as a pure function from the user's prompt
answers to the assembled `cmd_config` record.
-/

/-- Prefix test on character lists: `listStartsWith s p` holds when `p` is an
initial segment of `s`. -/
def listStartsWith : List Char → List Char → Bool
  | _, [] => true
  | [], _ :: _ => false
  | a :: s, b :: p => if a = b then listStartsWith s p else false

/-- Substring test, modelling Python's `pat in s`: some position of `s`
starts with `pat`. -/
def listContains : List Char → List Char → Bool
  | [], pat => listStartsWith [] pat
  | l@(_ :: t), pat => listStartsWith l pat || listContains t pat

/-- Index of the first occurrence of `pat` in `s`, if any. -/
def firstOccur : List Char → List Char → Option Nat
  | [], pat => if listStartsWith [] pat then some 0 else none
  | l@(_ :: t), pat =>
    if listStartsWith l pat then some 0
    else (firstOccur t pat).map (fun n => n + 1)

/-- Fuelled worker for `listReplace`; the fuel bounds the number of characters
consumed, so the recursion is structural and computations reduce in the
kernel. -/
def listReplaceFuel : Nat → List Char → List Char → List Char → List Char
  | 0, s, _, _ => s
  | fuel + 1, s, pat, rep =>
    match s with
    | [] => []
    | c :: t =>
      if pat ≠ [] ∧ listStartsWith (c :: t) pat = true then
        rep ++ listReplaceFuel fuel (t.drop (pat.length - 1)) pat rep
      else
        c :: listReplaceFuel fuel t pat rep

/-- Non-overlapping left-to-right replacement of every occurrence of `pat` by
`rep`, modelling Python's `s.replace(pat, rep)` for non-empty `pat`. -/
def listReplace (s pat rep : List Char) : List Char :=
  listReplaceFuel s.length s pat rep

/-- Split a character list at every `';'`, modelling Python's
`s.split(';')`: `"a;b"` gives `["a", "b"]` and `""` gives `[""]`.  Used to
read the fragments of an ffmpeg filter graph. -/
def splitSemi : List Char → List (List Char)
  | [] => [[]]
  | c :: t =>
    if c = ';' then [] :: splitSemi t
    else
      match splitSemi t with
      | [] => [[c]]
      | h :: r => (c :: h) :: r

/-- Suffix test on character lists. -/
def listEndsWith (s pat : List Char) : Bool :=
  listStartsWith s.reverse pat.reverse

/-- Worker for `pySplit`: accumulates the current (reversed) token while
scanning. -/
def splitWsAux : List Char → List Char → List (List Char)
  | [], acc => if acc = [] then [] else [acc.reverse]
  | c :: t, acc =>
    if c.isWhitespace then
      if acc = [] then splitWsAux t [] else acc.reverse :: splitWsAux t []
    else splitWsAux t (c :: acc)

/-- Python's `s.split()` with no argument: split on runs of whitespace,
discarding empty tokens. -/
def pySplit (s : String) : List String :=
  (splitWsAux s.data []).map (fun l => ⟨l⟩)

/-- Python's `s.replace(pat, rep)` on `String`. -/
def pyReplace (s pat rep : String) : String :=
  ⟨listReplace s.data pat.data rep.data⟩

/-- Python's `pat in s` on `String`. -/
def pyContains (s pat : String) : Bool :=
  listContains s.data pat.data

/-- Python's `s.lower()` (on the ASCII inputs the script compares against). -/
def pyLower (s : String) : String :=
  ⟨s.data.map Char.toLower⟩

/-- Python's `s.isdigit()` (for the ASCII digit strings the script reads):
non-empty and all decimal digits. -/
def pyIsDigit (s : String) : Bool :=
  s.data ≠ [] && s.data.all Char.isDigit

/-- Numeric value of a list of decimal digit characters. -/
def digitsToNat (l : List Char) : Nat :=
  l.foldl (fun acc c => acc * 10 + (c.toNat - 48)) 0

/-- Python's `int(s)`, modelled on its behaviour for an optional minus sign
followed by decimal digits; `none` is the `ValueError` case. -/
def pyInt (s : String) : Option Int :=
  match s.data with
  | [] => none
  | '-' :: rest =>
    if rest ≠ [] ∧ rest.all Char.isDigit then some (-(digitsToNat rest : Int))
    else none
  | l =>
    if l.all Char.isDigit then some ((digitsToNat l : Int)) else none

/-! ## The program model: `encode.py`'s command assembly -/

/-- An encoding preset (`ENCODE_SETTINGS['presets']` entries); parameter
values are kept in their `str(value)` form since the script only ever
stringifies them. -/
structure Preset where
  name : String
  codec : String
  params : List (String × String)
deriving DecidableEq, Repr

/-- The built-in `DEFAULT_PRESET` of `encode.py`. -/
def DEFAULT_PRESET : Preset :=
  ⟨"Default x264", "libx264", [("crf", "24"), ("preset", "veryslow")]⟩

/-- `ENCODE_SETTINGS['merged_audio_codec']`. -/
def merged_audio_codec : String := "aac"

/-- The stripped interactive answers `encode_video` consumes when no cache is
in use: audio mode choice, audio track list, subtitle track id, reencode
yes/no, target resolution. -/
structure PromptAnswers where
  audioChoice : String
  audioTrackList : String
  subChoice : String
  reencodeAnswer : String
  resChoice : String
deriving DecidableEq, Repr

/-- The `cmd_config` record of `encode_video` (its decision-dependent
fields). -/
structure CmdConfig where
  videoSettings : List String
  audioSettings : List String
  filterComplex : Option String
deriving DecidableEq, Repr

/-- The `amerge` filter fragment built at lines 240-250 of `encode.py` from
the merge track-id tokens. -/
def mergeFilter (ids : List String) : String :=
  String.join (ids.map (fun tid => "[0:a:" ++ tid ++ "]")) ++
    ("amerge=inputs=" ++ toString ids.length ++ "[aout]")

/-- The audio-handling stage of `encode_video` (lines 193-260): returns the
audio arguments and the optional audio filter fragment.  The `Except.error`
case models the `NameError` raised at line 220 when `track_list` was never
assigned (audio-mode answer other than `"1"`/`"2"` on the first file), which
the generic `except` handler at line 390 turns into a failure result. -/
def audioStage (numAudio : Nat) (ans : PromptAnswers) (fileIndex : Nat) :
    Except Unit (List String × Option String) :=
  if numAudio = 0 then .ok (["-an"], none)
  else
    let choice := if ans.audioChoice = "" then "1" else ans.audioChoice
    if choice = "1" then
      let tl := ans.audioTrackList
      if tl = "" then .ok (["-map", "0:a", "-c:a", "copy"], none)
      else if tl = "-" then .ok (["-an"], none)
      else
        .ok ((pySplit tl).foldl
          (fun acc tid => acc ++ ["-map", "0:a:" ++ tid, "-c:a", "copy"]) [],
          none)
    else if choice = "2" then
      let tl := ans.audioTrackList
      if tl ≠ "" then
        .ok (["-map", "[aout]", "-c:a", merged_audio_codec],
          some (mergeFilter (pySplit tl)))
      else .ok ([], none)
    else if fileIndex = 0 then .error () else .ok ([], none)

/-- Lines 280-284 of `encode.py`: the subtitle track selected for burn-in,
`some k` when `int(sub_choice)` succeeds and equals the id of one of the
`numSub` subtitle tracks (whose ids are `0, ..., numSub - 1`). -/
def selectedSubtitle (numSub : Nat) (subChoice : String) : Option Int :=
  if numSub = 0 then none
  else if subChoice = "" then none
  else
    match pyInt subChoice with
    | none => none
    | some k => if 0 ≤ k ∧ k < (numSub : Int) then some k else none

/-- Line 286 of `encode.py`: escape the input path for use inside the
subtitles filter expression. -/
def escapePath (p : String) : String :=
  pyReplace (pyReplace p "\\" "\\\\") ":" "\\:"

/-- Line 289/293 of `encode.py`: the subtitles filter fragment. -/
def subtitleFilter (inputPath : String) (subId : Int) : String :=
  "[0:v]subtitles=\x27" ++ escapePath inputPath ++ "\x27:si=" ++
    toString subId ++ "[vout]"

/-- The subtitle-handling stage of `encode_video` (lines 262-296): given the
current video settings and filter graph, returns the updated settings, the
updated graph, and the `should_reencode` flag it forces. -/
def subtitleStage (inputPath : String) (numSub : Nat) (subChoice : String)
    (vs : List String) (fc : Option String) :
    List String × Option String × Bool :=
  match selectedSubtitle numSub subChoice with
  | none => (vs, fc, false)
  | some k =>
    let sf := subtitleFilter inputPath k
    match fc with
    | some f => (["-map", "[vout]"] ++ vs.drop 2, some (f ++ ";" ++ sf), true)
    | none => (["-map", "[vout]"] ++ vs.drop 2, some sf, true)

/-- Lines 318-320 of `encode.py`: the `-key value` argument pairs of a
preset. -/
def presetArgs (preset : Preset) : List String :=
  preset.params.foldl (fun acc kv => acc ++ ["-" ++ kv.1, kv.2]) []

/-- The reencoding stage of `encode_video` (lines 309-348): append the preset
codec and parameters, then handle the optional resolution scale, branching on
whether the existing filter graph contains `[aout]`. -/
def reencodeStage (preset : Preset) (resChoice : String)
    (vs : List String) (fc : Option String) : List String × Option String :=
  let vs1 := vs ++ ["-c:v", preset.codec] ++ presetArgs preset
  if resChoice ≠ "" ∧ pyIsDigit resChoice = true then
    let scaleFilter := "scale=-1:" ++ toString (digitsToNat resChoice.data)
    match fc with
    | some f =>
      if pyContains f "[aout]" = true then
        (["-map", "[vout]"] ++ vs1.drop 2,
          some (f ++ ";" ++ ("[0:v]" ++ scaleFilter ++ "[vout]")))
      else
        (vs1, some (pyReplace f "[vout]"
          ("[vtmp];[vtmp]" ++ scaleFilter ++ "[vout]")))
    | none =>
      (["-map", "[vout]"] ++ vs1.drop 2,
        some ("[0:v]" ++ scaleFilter ++ "[vout]"))
  else (vs1, fc)

/-- The full decision-dependent command assembly of `encode_video`
(lines 184-352 of `src/encode.py`), for a file with `numAudio` audio tracks
and `numSub` subtitle tracks, when no settings cache is in use and the
interactive answers are as in `ans`.  Returns the assembled `cmd_config`
fields, or `Except.error ()` for the unhandled-`NameError` path. -/
def assemble (inputPath : String) (numAudio numSub : Nat)
    (ans : PromptAnswers) (preset : Preset) (fileIndex : Nat) :
    Except Unit CmdConfig :=
  match audioStage numAudio ans fileIndex with
  | .error e => .error e
  | .ok (audioSettings, audioFilter) =>
    let r := subtitleStage inputPath numSub ans.subChoice ["-map", "0:v"]
      audioFilter
    let shouldReencode : Bool :=
      r.2.2 || decide (pyLower ans.reencodeAnswer = "y")
    let vf :=
      if shouldReencode then reencodeStage preset ans.resChoice r.1 r.2.1
      else (r.1, r.2.1)
    let finalVideo :=
      if shouldReencode then vf.1 else ["-map", "0:v", "-c:v", "copy"]
    .ok ⟨finalVideo, audioSettings, vf.2⟩

/-- Number of fragments of the filter graph `g` that produce (end with) the
given output label. -/
def producerCount (g label : String) : Nat :=
  ((splitSemi g.data).filter (fun f => listEndsWith f label.data)).length

/-- The part of the subtitles filter fragment before its output label
`[vout]`. -/
def subPrefixStr (p : String) (k : Int) : String :=
  "[0:v]subtitles=\x27" ++ escapePath p ++ "\x27:si=" ++ toString k

/-- Absence of the fragment separator `';'` from a character list. -/
def noSemi (l : List Char) : Bool :=
  l.all (fun c => c != ';')

/-- One-pass character-level escaping as the spec describes it: every
backslash becomes two backslashes and every colon becomes backslash-colon. -/
def escapeChars : List Char → List Char
  | [] => []
  | c :: t =>
    (if c = '\\' then ['\\', '\\']
     else if c = ':' then ['\\', ':'] else [c]) ++ escapeChars t

/-- Spec-side description of the path escaping, to be compared with the
code's `escapePath` (two sequential `replace` calls). -/
def escapeSpec (p : String) : String :=
  ⟨escapeChars p.data⟩

/-! ## Lemmas about the string primitives -/

theorem listStartsWith_refl (l : List Char) : listStartsWith l l = true := by
  induction l with
  | nil => rfl
  | cons c t ih => simp [listStartsWith, ih]

theorem listStartsWith_mono {x p : List Char} (y : List Char)
    (h : listStartsWith x p = true) : listStartsWith (x ++ y) p = true := by
  induction p generalizing x with
  | nil => simp [listStartsWith]
  | cons b pt ih =>
    cases x with
    | nil => simp [listStartsWith] at h
    | cons a xt =>
      by_cases hab : a = b
      · subst hab
        simp only [listStartsWith, if_pos rfl] at h
        simpa [listStartsWith] using ih h
      · simp [listStartsWith, hab] at h

theorem listContains_of_startsWith {s p : List Char}
    (h : listStartsWith s p = true) : listContains s p = true := by
  cases s with
  | nil => simpa [listContains] using h
  | cons c t => simp [listContains, h]

theorem listContains_append_right {y p : List Char} (x : List Char)
    (h : listContains y p = true) : listContains (x ++ y) p = true := by
  induction x with
  | nil => simpa using h
  | cons c xt ih => simp [listContains, ih]

theorem listContains_append_left {x p : List Char} (y : List Char)
    (h : listContains x p = true) : listContains (x ++ y) p = true := by
  induction x with
  | nil =>
    cases p with
    | nil => exact listContains_of_startsWith (by cases y <;> simp [listStartsWith])
    | cons b pt => simp [listContains, listStartsWith] at h
  | cons c xt ih =>
    simp only [listContains, Bool.or_eq_true] at h
    rcases h with h | h
    · exact listContains_of_startsWith (listStartsWith_mono y h)
    · simpa [listContains] using Or.inr (ih h)

theorem listReplaceFuel_congr (f1 : Nat) :
    ∀ (f2 : Nat) (s pat rep : List Char), s.length ≤ f1 → s.length ≤ f2 →
      listReplaceFuel f1 s pat rep = listReplaceFuel f2 s pat rep := by
  induction f1 with
  | zero =>
    intro f2 s pat rep h1 _
    have hs : s = [] := List.eq_nil_of_length_eq_zero (Nat.le_zero.mp h1)
    subst hs
    cases f2 <;> rfl
  | succ f1 ih =>
    intro f2 s pat rep h1 h2
    cases s with
    | nil => cases f2 <;> rfl
    | cons c t =>
      cases f2 with
      | zero => simp at h2
      | succ f2 =>
        simp only [listReplaceFuel]
        have h1' : t.length ≤ f1 := by simpa using h1
        have h2' : t.length ≤ f2 := by simpa using h2
        by_cases hc : pat ≠ [] ∧ listStartsWith (c :: t) pat = true
        · rw [if_pos hc, if_pos hc]
          have hd : (t.drop (pat.length - 1)).length ≤ t.length := by
            rw [List.length_drop]; omega
          exact congrArg (rep ++ ·)
            (ih f2 _ pat rep (le_trans hd h1') (le_trans hd h2'))
        · rw [if_neg hc, if_neg hc]
          exact congrArg (c :: ·) (ih f2 t pat rep h1' h2')

theorem listReplace_cons (c : Char) (t pat rep : List Char) :
    listReplace (c :: t) pat rep =
      if pat ≠ [] ∧ listStartsWith (c :: t) pat = true then
        rep ++ listReplace (t.drop (pat.length - 1)) pat rep
      else c :: listReplace t pat rep := by
  unfold listReplace
  simp only [List.length_cons, listReplaceFuel]
  by_cases hc : pat ≠ [] ∧ listStartsWith (c :: t) pat = true
  · rw [if_pos hc, if_pos hc]
    refine congrArg (rep ++ ·) (listReplaceFuel_congr t.length _ _ pat rep ?_ ?_)
    · rw [List.length_drop]; omega
    · exact le_rfl
  · rw [if_neg hc, if_neg hc]

theorem listReplace_append_of_firstOccur (pat rep : List Char) (hne : pat ≠ []) :
    ∀ a : List Char, firstOccur (a ++ pat) pat = some a.length →
      listReplace (a ++ pat) pat rep = a ++ rep := by
  intro a
  induction a with
  | nil =>
    intro _
    cases pat with
    | nil => exact absurd rfl hne
    | cons q qt =>
      rw [List.nil_append, listReplace_cons,
        if_pos ⟨hne, listStartsWith_refl _⟩]
      simp [listReplace, listReplaceFuel]
  | cons c a' ih =>
    intro h
    have hs : listStartsWith (c :: (a' ++ pat)) pat = false := by
      cases hsw : listStartsWith (c :: (a' ++ pat)) pat with
      | false => rfl
      | true =>
        rw [List.cons_append] at h
        simp [firstOccur, hsw] at h
    rw [List.cons_append] at h
    simp only [firstOccur, hs] at h
    rw [if_neg (by simp)] at h
    rcases Option.map_eq_some'.mp h with ⟨m, hm, hmv⟩
    have hmeq : m = a'.length := by
      have hv : m + 1 = (c :: a').length := hmv
      simpa using hv
    rw [List.cons_append, listReplace_cons, if_neg (by simp [hs]), ih (hmeq ▸ hm)]
    rfl

theorem splitSemi_no_semi (x : List Char) (hx : ∀ c ∈ x, c ≠ ';') :
    splitSemi x = [x] := by
  induction x with
  | nil => rfl
  | cons c t ih =>
    have hc : c ≠ ';' := hx c (List.mem_cons_self c t)
    have ht := ih (fun d hd => hx d (List.mem_cons_of_mem c hd))
    simp [splitSemi, hc, ht]

theorem splitSemi_append (x y : List Char) (hx : ∀ c ∈ x, c ≠ ';') :
    splitSemi (x ++ ';' :: y) = x :: splitSemi y := by
  induction x with
  | nil => simp [splitSemi]
  | cons c t ih =>
    have hc : c ≠ ';' := hx c (List.mem_cons_self c t)
    have ht := ih (fun d hd => hx d (List.mem_cons_of_mem c hd))
    simp [splitSemi, hc, ht]

/-! ## String-level helper lemmas -/

theorem pyContains_refl (pat : String) : pyContains pat pat = true :=
  match pat with
  | ⟨_⟩ => listContains_of_startsWith (listStartsWith_refl _)

theorem pyContains_append_right (x y pat : String) (h : pyContains y pat = true) :
    pyContains (x ++ y) pat = true := by
  unfold pyContains at h ⊢
  rw [String.data_append]
  exact listContains_append_right x.data h

theorem pyContains_append_left (x y pat : String) (h : pyContains x pat = true) :
    pyContains (x ++ y) pat = true := by
  unfold pyContains at h ⊢
  rw [String.data_append]
  exact listContains_append_left y.data h

theorem mergeFilter_contains_aout (ids : List String) :
    pyContains (mergeFilter ids) "[aout]" = true := by
  unfold mergeFilter
  apply pyContains_append_right
  apply pyContains_append_right
  exact pyContains_refl "[aout]"

/-! ## Claim theorems -/

/-- Claim C1: the spec's composition invariant says no two filter fragments
may produce the same named output, in particular no duplicate producer of
`[vout]` when audio merge, subtitle burn-in and a resolution scale are all
requested together.  The code violates this: on such a request the scale
branch keyed on `'[aout]' in filter_complex` (line 336) appends a second
`[0:v]scale...[vout]` fragment even though the subtitle fragment already
produced `[vout]`, so the assembled graph has two producers of `[vout]`. -/
theorem C1_merge_subtitle_scale_duplicates_vout :
    assemble "in.mkv" 2 1 ⟨"2", "0 1", "0", "", "720"⟩ DEFAULT_PRESET 0 =
      .ok ⟨["-map", "[vout]", "-c:v", "libx264", "-crf", "24",
            "-preset", "veryslow"],
        ["-map", "[aout]", "-c:a", "aac"],
        some ("[0:a:0][0:a:1]amerge=inputs=2[aout];[0:v]subtitles=\x27in.mkv\x27:si=0[vout];[0:v]scale=-1:720[vout]")⟩ ∧
    producerCount "[0:a:0][0:a:1]amerge=inputs=2[aout];[0:v]subtitles=\x27in.mkv\x27:si=0[vout];[0:v]scale=-1:720[vout]"
      "[vout]" = 2 :=
  ⟨rfl, by decide⟩

/-- Claim C5: with audio mode "include" (answer `1`, or empty answer
defaulting to `1`), an empty track list yields exactly
`-map 0:a -c:a copy` and no audio filter fragment, and the sentinel `-`
yields exactly `-an`; the assembled command's audio settings agree. -/
theorem C5_include_empty_and_dash (numAudio : Nat) (hA : numAudio ≠ 0)
    (ac sub re res : String) (hac : ac = "1" ∨ ac = "")
    (fidx : Nat) (p : String) (numSub : Nat) (preset : Preset) :
    audioStage numAudio ⟨ac, "", sub, re, res⟩ fidx =
        .ok (["-map", "0:a", "-c:a", "copy"], none) ∧
    audioStage numAudio ⟨ac, "-", sub, re, res⟩ fidx = .ok (["-an"], none) ∧
    (∀ cfg, assemble p numAudio numSub ⟨ac, "", sub, re, res⟩ preset fidx = .ok cfg →
        cfg.audioSettings = ["-map", "0:a", "-c:a", "copy"]) ∧
    (∀ cfg, assemble p numAudio numSub ⟨ac, "-", sub, re, res⟩ preset fidx = .ok cfg →
        cfg.audioSettings = ["-an"]) := by
  have hch : (if ac = "" then "1" else ac) = "1" := by
    rcases hac with rfl | rfl <;> simp
  have h1 : audioStage numAudio ⟨ac, "", sub, re, res⟩ fidx =
      .ok (["-map", "0:a", "-c:a", "copy"], none) := by
    simp [audioStage, hA, hch]
  have h2 : audioStage numAudio ⟨ac, "-", sub, re, res⟩ fidx =
      .ok (["-an"], none) := by
    simp [audioStage, hA, hch]
  refine ⟨h1, h2, ?_, ?_⟩
  · intro cfg h
    simp only [assemble, h1, Except.ok.injEq] at h
    subst h
    rfl
  · intro cfg h
    simp only [assemble, h2, Except.ok.injEq] at h
    subst h
    rfl

/-- Claim C5 witness at a concrete input. -/
theorem C5_witness :
    audioStage 1 ⟨"1", "", "", "", ""⟩ 0 =
        .ok (["-map", "0:a", "-c:a", "copy"], none) ∧
    audioStage 1 ⟨"1", "-", "", "", ""⟩ 0 = .ok (["-an"], none) ∧
    (∀ cfg, assemble "a" 1 0 ⟨"1", "", "", "", ""⟩ DEFAULT_PRESET 0 = .ok cfg →
        cfg.audioSettings = ["-map", "0:a", "-c:a", "copy"]) ∧
    (∀ cfg, assemble "a" 1 0 ⟨"1", "-", "", "", ""⟩ DEFAULT_PRESET 0 = .ok cfg →
        cfg.audioSettings = ["-an"]) :=
  C5_include_empty_and_dash 1 (by decide) "1" "" "" "" (Or.inl rfl) 0 "a" 0
    DEFAULT_PRESET

/-- Claim C6: with audio mode "merge" and track list `0 2`, the composer
emits the filter fragment `[0:a:0][0:a:2]amerge=inputs=2[aout]` and the
audio arguments `-map [aout] -c:a` followed by the configured merged-audio
codec. -/
theorem C6_merge_tracks_zero_two (numAudio : Nat) (hA : numAudio ≠ 0)
    (sub re res : String) (fidx : Nat) (p : String) (numSub : Nat)
    (preset : Preset) :
    audioStage numAudio ⟨"2", "0 2", sub, re, res⟩ fidx =
      .ok (["-map", "[aout]", "-c:a", merged_audio_codec],
        some "[0:a:0][0:a:2]amerge=inputs=2[aout]") ∧
    (∀ cfg, assemble p numAudio numSub ⟨"2", "0 2", sub, re, res⟩ preset fidx = .ok cfg →
      cfg.audioSettings = ["-map", "[aout]", "-c:a", merged_audio_codec]) := by
  have hm : mergeFilter (pySplit "0 2") = "[0:a:0][0:a:2]amerge=inputs=2[aout]" := by
    decide
  have h1 : audioStage numAudio ⟨"2", "0 2", sub, re, res⟩ fidx =
      .ok (["-map", "[aout]", "-c:a", merged_audio_codec],
        some "[0:a:0][0:a:2]amerge=inputs=2[aout]") := by
    simp [audioStage, hA, hm]
  refine ⟨h1, ?_⟩
  intro cfg h
  simp only [assemble, h1, Except.ok.injEq] at h
  subst h
  rfl

/-- Claim C6 witness at a concrete input. -/
theorem C6_witness :
    audioStage 3 ⟨"2", "0 2", "", "", ""⟩ 0 =
      .ok (["-map", "[aout]", "-c:a", merged_audio_codec],
        some "[0:a:0][0:a:2]amerge=inputs=2[aout]") ∧
    (∀ cfg, assemble "a" 3 0 ⟨"2", "0 2", "", "", ""⟩ DEFAULT_PRESET 0 = .ok cfg →
      cfg.audioSettings = ["-map", "[aout]", "-c:a", merged_audio_codec]) :=
  C6_merge_tracks_zero_two 3 (by decide) "" "" "" 0 "a" 0 DEFAULT_PRESET

/-- Claim C9 (implicit): with audio mode "merge" and an empty track list, the
composer emits no audio arguments at all and adds no audio fragment to the
filter graph. -/
theorem C9_merge_empty_list_no_audio (numAudio : Nat) (hA : numAudio ≠ 0)
    (sub re res : String) (fidx : Nat) (p : String) (numSub : Nat)
    (preset : Preset) :
    audioStage numAudio ⟨"2", "", sub, re, res⟩ fidx = .ok ([], none) ∧
    (∀ cfg, assemble p numAudio numSub ⟨"2", "", sub, re, res⟩ preset fidx = .ok cfg →
      cfg.audioSettings = []) := by
  have h1 : audioStage numAudio ⟨"2", "", sub, re, res⟩ fidx = .ok ([], none) := by
    simp [audioStage, hA]
  refine ⟨h1, ?_⟩
  intro cfg h
  simp only [assemble, h1, Except.ok.injEq] at h
  subst h
  rfl

/-- Claim C9 witness at a concrete input. -/
theorem C9_witness :
    audioStage 2 ⟨"2", "", "", "", ""⟩ 0 = .ok ([], none) ∧
    (∀ cfg, assemble "a" 2 0 ⟨"2", "", "", "", ""⟩ DEFAULT_PRESET 0 = .ok cfg →
      cfg.audioSettings = []) :=
  C9_merge_empty_list_no_audio 2 (by decide) "" "" "" 0 "a" 0 DEFAULT_PRESET

/-- Claim C10, counterexample: a file with one audio track, processed
without cached settings as the second file of a batch (file index 1), with
audio-mode answer `"3"`: `encode_video` does not abort — the unassigned
`track_list` is never read because the cache-store line is guarded by
`file_index == 0` — and a full command is assembled with empty audio
settings. -/
theorem C10_counterexample_second_file :
    (assemble "a" 1 0 ⟨"3", "", "", "", ""⟩ DEFAULT_PRESET 1).toOption =
      some ⟨["-map", "0:v", "-c:v", "copy"], [], none⟩ :=
  rfl

/-- Claim C10, amended: on the first file of a batch (file index 0), an
audio-mode answer that is non-empty and neither `"1"` nor `"2"` aborts the
file with a failure result: `cached_settings['audio_tracks'] = track_list`
at line 220 reads the never-assigned `track_list`, raising the exception the
generic handler turns into a failure. -/
theorem C10_first_file_aborts (p : String) (numAudio numSub : Nat)
    (hA : numAudio ≠ 0) (ans : PromptAnswers) (preset : Preset)
    (h1 : ans.audioChoice ≠ "") (h2 : ans.audioChoice ≠ "1")
    (h3 : ans.audioChoice ≠ "2") :
    assemble p numAudio numSub ans preset 0 = .error () := by
  have haud : audioStage numAudio ans 0 = .error () := by
    simp [audioStage, hA, h1, h2, h3]
  simp [assemble, haud]

/-- Claim C10 witness at a concrete input. -/
theorem C10_witness :
    assemble "a" 1 0 ⟨"3", "", "", "", ""⟩ DEFAULT_PRESET 0 = .error () :=
  C10_first_file_aborts "a" 1 0 (by decide) ⟨"3", "", "", "", ""⟩ DEFAULT_PRESET
    (by decide) (by decide) (by decide)

/-- Claim C7: whenever reencoding is off (no subtitle selected and the
reencode answer is not `y`), the final video arguments are exactly
`-map 0:v -c:v copy`; in particular no preset codec or parameters appear. -/
theorem C7_no_reencode_copies_video (p : String) (numAudio numSub : Nat)
    (ans : PromptAnswers) (preset : Preset) (fidx : Nat)
    (hsub : selectedSubtitle numSub ans.subChoice = none)
    (hre : pyLower ans.reencodeAnswer ≠ "y") :
    ∀ cfg, assemble p numAudio numSub ans preset fidx = .ok cfg →
      cfg.videoSettings = ["-map", "0:v", "-c:v", "copy"] := by
  intro cfg h
  have hd : decide (pyLower ans.reencodeAnswer = "y") = false := decide_eq_false hre
  cases hA : audioStage numAudio ans fidx with
  | error e =>
    simp only [assemble, hA] at h
    exact (Except.noConfusion h)
  | ok pr =>
    obtain ⟨as, af⟩ := pr
    simp only [assemble, hA, subtitleStage, hsub, hd, Bool.or_false,
      Bool.false_eq_true, if_false, Except.ok.injEq] at h
    subst h
    rfl

/-- Claim C7 witness at a concrete input. -/
theorem C7_witness :
    (CmdConfig.mk ["-map", "0:v", "-c:v", "copy"] ["-an"] none).videoSettings =
      ["-map", "0:v", "-c:v", "copy"] :=
  C7_no_reencode_copies_video "a" 0 0 ⟨"", "", "", "n", ""⟩ DEFAULT_PRESET 0
    (by decide) (by decide) ⟨["-map", "0:v", "-c:v", "copy"], ["-an"], none⟩ rfl

/-! ## Infrastructure for the subtitle-filter claims -/

/-- Extensionality for the string model: equal character data gives equal
strings. -/
theorem string_ext {a b : String} (h : a.data = b.data) : a = b := by
  cases a; cases b; exact congrArg String.mk h

theorem subtitleFilter_eq (p : String) (k : Int) :
    subtitleFilter p k = subPrefixStr p k ++ "[vout]" := rfl

theorem subPrefixStr_split (p : String) (k : Int) :
    subPrefixStr p k =
      ("[0:v]subtitles=\x27" ++ escapePath p ++ "\x27:") ++
        ("si=" ++ toString k) := by
  apply string_ext
  simp [subPrefixStr, String.data_append, List.append_assoc]

theorem subPrefixStr_contains_si (p : String) (k : Int) :
    pyContains (subPrefixStr p k) ("si=" ++ toString k) = true := by
  rw [subPrefixStr_split]
  exact pyContains_append_right _ _ _ (pyContains_refl _)

theorem subtitleFilter_contains_si (p : String) (k : Int) :
    pyContains (subtitleFilter p k) ("si=" ++ toString k) = true := by
  rw [subtitleFilter_eq]
  exact pyContains_append_left _ _ _ (subPrefixStr_contains_si p k)

theorem selectedSubtitle_some {numSub : Nat} {k : Int} {s : String}
    (hp : pyInt s = some k) (h0 : 0 ≤ k) (hn : k < (numSub : Int)) :
    selectedSubtitle numSub s = some k := by
  have hns : numSub ≠ 0 := by
    intro h
    subst h
    simp at hn
    omega
  have hse : s ≠ "" := by
    intro h
    subst h
    rw [show pyInt "" = none from rfl] at hp
    cases hp
  simp [selectedSubtitle, hns, hse, hp, h0, hn]

/-- Rewriting the subtitle fragment's `[vout]` output label: when the only
occurrence of `[vout]` in the fragment is its final output label (the
hypothesis `hout`), line 344's `replace('[vout]', ...)` rewrites exactly that
label. -/
theorem pyReplace_subtitleFilter (p : String) (k : Int) (rep : String)
    (hout : firstOccur (subtitleFilter p k).data "[vout]".data =
      some (subPrefixStr p k).data.length) :
    pyReplace (subtitleFilter p k) "[vout]" rep = subPrefixStr p k ++ rep := by
  have hsf : (subtitleFilter p k).data =
      (subPrefixStr p k).data ++ "[vout]".data := by
    rw [subtitleFilter_eq, String.data_append]
  rw [hsf] at hout
  apply string_ext
  show listReplace (subtitleFilter p k).data "[vout]".data rep.data = _
  rw [hsf, String.data_append]
  exact listReplace_append_of_firstOccur "[vout]".data rep.data (by decide)
    (subPrefixStr p k).data hout

/-- Any audio filter fragment produced by the audio stage is an `amerge`
fragment built by `mergeFilter` from the split track list. -/
theorem audioStage_filter_shape (numAudio : Nat) (ans : PromptAnswers)
    (fidx : Nat) (as : List String) (m : String)
    (h : audioStage numAudio ans fidx = .ok (as, some m)) :
    m = mergeFilter (pySplit ans.audioTrackList) := by
  simp only [audioStage] at h
  split_ifs at h <;> simp_all

/-- Claim C4: selecting a subtitle track id `k` that parses to the id of an
existing subtitle track forces reencoding regardless of the later reencode
answer, the video mapping becomes `-map [vout]`, and the filter graph
contains `si=k`.  The hypotheses `hout`/`haout` state that the escaped input
path does not itself contain the labels `[vout]`/`[aout]` (the only `[vout]`
occurrence in the subtitle fragment is its output label). -/
theorem C4_subtitle_forces_reencode (p : String) (numAudio numSub : Nat)
    (ans : PromptAnswers) (preset : Preset) (fidx : Nat)
    (as : List String) (af : Option String)
    (hA : audioStage numAudio ans fidx = .ok (as, af))
    (k : Int) (hparse : pyInt ans.subChoice = some k) (hk0 : 0 ≤ k)
    (hkn : k < (numSub : Int))
    (hout : firstOccur (subtitleFilter p k).data "[vout]".data =
      some (subPrefixStr p k).data.length)
    (haout : pyContains (subtitleFilter p k) "[aout]" = false) :
    (subtitleStage p numSub ans.subChoice ["-map", "0:v"] af).2.2 = true ∧
    ∀ cfg, assemble p numAudio numSub ans preset fidx = .ok cfg →
      cfg.videoSettings.take 2 = ["-map", "[vout]"] ∧
      ∃ g, cfg.filterComplex = some g ∧
        pyContains g ("si=" ++ toString k) = true := by
  have hsel : selectedSubtitle numSub ans.subChoice = some k :=
    selectedSubtitle_some hparse hk0 hkn
  constructor
  · cases af <;> simp [subtitleStage, hsel]
  · intro cfg h
    simp only [assemble, hA] at h
    cases af with
    | none =>
      by_cases hres : ans.resChoice ≠ "" ∧ pyIsDigit ans.resChoice = true
      · simp only [subtitleStage, hsel, reencodeStage, Bool.true_or, if_true,
          if_pos hres, haout, Bool.false_eq_true, if_false, List.drop_succ_cons,
          List.drop_nil, List.append_nil, Except.ok.injEq] at h
        subst h
        refine ⟨by simp, ⟨pyReplace (subtitleFilter p k) "[vout]"
          ("[vtmp];[vtmp]" ++ ("scale=-1:" ++
            toString (digitsToNat ans.resChoice.data)) ++ "[vout]"), rfl, ?_⟩⟩
        rw [pyReplace_subtitleFilter p k _ hout]
        exact pyContains_append_left _ _ _ (subPrefixStr_contains_si p k)
      · simp only [subtitleStage, hsel, reencodeStage, Bool.true_or, if_true,
          if_neg hres, List.drop_succ_cons, List.drop_nil, List.append_nil,
          Except.ok.injEq] at h
        subst h
        exact ⟨by simp, ⟨subtitleFilter p k, rfl,
          subtitleFilter_contains_si p k⟩⟩
    | some m =>
      have hcont : pyContains (m ++ ";" ++ subtitleFilter p k) "[aout]" = true := by
        have hm := audioStage_filter_shape numAudio ans fidx as m hA
        subst hm
        exact pyContains_append_left _ _ _ (pyContains_append_left _ _ _
          (mergeFilter_contains_aout _))
      by_cases hres : ans.resChoice ≠ "" ∧ pyIsDigit ans.resChoice = true
      · simp only [subtitleStage, hsel, reencodeStage, Bool.true_or, if_true,
          if_pos hres, hcont, if_pos, List.drop_succ_cons, List.drop_nil,
          List.append_nil, Except.ok.injEq] at h
        subst h
        refine ⟨by simp, ⟨_, rfl, ?_⟩⟩
        apply pyContains_append_left
        apply pyContains_append_left
        exact pyContains_append_right _ _ _ (subtitleFilter_contains_si p k)
      · simp only [subtitleStage, hsel, reencodeStage, Bool.true_or, if_true,
          if_neg hres, List.drop_succ_cons, List.drop_nil, List.append_nil,
          Except.ok.injEq] at h
        subst h
        refine ⟨by simp, ⟨_, rfl, ?_⟩⟩
        exact pyContains_append_right _ _ _ (subtitleFilter_contains_si p k)

/-- Claim C4 witness at a concrete input: one audio track (include-all), one
subtitle track, burn-in of track 0, empty reencode answer, resolution 720. -/
theorem C4_witness :
    (subtitleStage "in.mkv" 1 "0" ["-map", "0:v"] none).2.2 = true ∧
    (["-map", "[vout]", "-c:v", "libx264", "-crf", "24", "-preset",
      "veryslow"].take 2 = ["-map", "[vout]"]) ∧
    pyContains "[0:v]subtitles=\x27in.mkv\x27:si=0[vtmp];[vtmp]scale=-1:720[vout]"
      ("si=" ++ toString (0 : Int)) = true := by
  have h := C4_subtitle_forces_reencode "in.mkv" 1 1 ⟨"1", "", "0", "", "720"⟩
    DEFAULT_PRESET 0 ["-map", "0:a", "-c:a", "copy"] none rfl 0 (by decide)
    (by decide) (by decide) (by decide) (by decide)
  obtain ⟨h1, h2⟩ := h
  obtain ⟨hv, g, hg, hc⟩ := h2
    ⟨["-map", "[vout]", "-c:v", "libx264", "-crf", "24", "-preset", "veryslow"],
     ["-map", "0:a", "-c:a", "copy"],
     some "[0:v]subtitles=\x27in.mkv\x27:si=0[vtmp];[vtmp]scale=-1:720[vout]"⟩
    rfl
  refine ⟨h1, hv, ?_⟩
  obtain rfl :
      g = "[0:v]subtitles=\x27in.mkv\x27:si=0[vtmp];[vtmp]scale=-1:720[vout]" := by
    simpa using hg.symm
  exact hc

/-- Bridge from the Boolean `noSemi` check to the elementwise statement. -/
theorem noSemi_forall {l : List Char} (h : noSemi l = true) :
    ∀ c ∈ l, c ≠ ';' := by
  intro c hc
  have hb := (List.all_eq_true.mp h) c hc
  simpa using hb

/-- Claim C2: with subtitle burn-in of an existing track `k`, a digit target
resolution, and no audio filter fragment, the assembled graph is the
two-stage chain: the subtitle fragment re-labelled to output `[vtmp]`,
followed by `[vtmp]scale=-1:H[vout]`, and the video map is `-map [vout]`
followed by the preset arguments.  `hout` states the escaped path does not
itself contain `[vout]`, `haout` that it does not contain `[aout]`, and
`hs1`/`hs2` that neither resulting fragment contains a stray `';'`. -/
theorem C2_subtitle_scale_chain (p : String) (numAudio numSub : Nat)
    (ans : PromptAnswers) (preset : Preset) (fidx : Nat)
    (as : List String)
    (hA : audioStage numAudio ans fidx = .ok (as, none))
    (k : Int) (hparse : pyInt ans.subChoice = some k) (hk0 : 0 ≤ k)
    (hkn : k < (numSub : Int))
    (hH : ans.resChoice ≠ "") (hHd : pyIsDigit ans.resChoice = true)
    (hout : firstOccur (subtitleFilter p k).data "[vout]".data =
      some (subPrefixStr p k).data.length)
    (haout : pyContains (subtitleFilter p k) "[aout]" = false)
    (hs1 : noSemi (subPrefixStr p k ++ "[vtmp]").data = true)
    (hs2 : noSemi ("[vtmp]" ++ ("scale=-1:" ++
      toString (digitsToNat ans.resChoice.data)) ++ "[vout]").data = true) :
    assemble p numAudio numSub ans preset fidx =
      .ok ⟨["-map", "[vout]", "-c:v", preset.codec] ++ presetArgs preset, as,
        some (subPrefixStr p k ++ ("[vtmp];[vtmp]" ++ ("scale=-1:" ++
          toString (digitsToNat ans.resChoice.data)) ++ "[vout]"))⟩ ∧
    splitSemi (subPrefixStr p k ++ ("[vtmp];[vtmp]" ++ ("scale=-1:" ++
        toString (digitsToNat ans.resChoice.data)) ++ "[vout]")).data =
      [(subPrefixStr p k ++ "[vtmp]").data,
       ("[vtmp]" ++ ("scale=-1:" ++
         toString (digitsToNat ans.resChoice.data)) ++ "[vout]").data] := by
  have hsel : selectedSubtitle numSub ans.subChoice = some k :=
    selectedSubtitle_some hparse hk0 hkn
  have hres : ans.resChoice ≠ "" ∧ pyIsDigit ans.resChoice = true := ⟨hH, hHd⟩
  constructor
  · simp only [assemble, hA, subtitleStage, hsel, reencodeStage, Bool.true_or,
      if_true, if_pos hres, haout, Bool.false_eq_true, if_false,
      List.drop_succ_cons, List.drop_nil, List.append_nil]
    rw [pyReplace_subtitleFilter p k _ hout]
    simp
  · have hgd : (subPrefixStr p k ++ ("[vtmp];[vtmp]" ++ ("scale=-1:" ++
        toString (digitsToNat ans.resChoice.data)) ++ "[vout]")).data =
        (subPrefixStr p k ++ "[vtmp]").data ++ ';' ::
          ("[vtmp]" ++ ("scale=-1:" ++
            toString (digitsToNat ans.resChoice.data)) ++ "[vout]").data := by
      simp [String.data_append, List.append_assoc]
    rw [hgd, splitSemi_append _ _ (noSemi_forall hs1),
      splitSemi_no_semi _ (noSemi_forall hs2)]

/-- Claim C2 witness at a concrete input: include-all audio, subtitle track
0 of 1, resolution 720, input `in.mkv`. -/
theorem C2_witness :
    assemble "in.mkv" 1 1 ⟨"1", "", "0", "", "720"⟩ DEFAULT_PRESET 0 =
      .ok ⟨["-map", "[vout]", "-c:v", DEFAULT_PRESET.codec] ++
          presetArgs DEFAULT_PRESET,
        ["-map", "0:a", "-c:a", "copy"],
        some (subPrefixStr "in.mkv" 0 ++ ("[vtmp];[vtmp]" ++ ("scale=-1:" ++
          toString (digitsToNat ("720" : String).data)) ++ "[vout]"))⟩ ∧
    splitSemi (subPrefixStr "in.mkv" 0 ++ ("[vtmp];[vtmp]" ++ ("scale=-1:" ++
        toString (digitsToNat ("720" : String).data)) ++ "[vout]")).data =
      [(subPrefixStr "in.mkv" 0 ++ "[vtmp]").data,
       ("[vtmp]" ++ ("scale=-1:" ++
         toString (digitsToNat ("720" : String).data)) ++ "[vout]").data] :=
  C2_subtitle_scale_chain "in.mkv" 1 1 ⟨"1", "", "0", "", "720"⟩ DEFAULT_PRESET
    0 ["-map", "0:a", "-c:a", "copy"] rfl 0 (by decide) (by decide) (by decide)
    (by decide) (by decide) (by decide) (by decide) (by decide) (by decide)

/-- Claim C3: with audio merge (non-empty track list), no subtitle burn-in,
reencode answer `y` and a digit target resolution, the assembled graph is
the audio merge fragment and the scale fragment joined by `;`, the scale
fragment reading raw `[0:v]` and producing `[vout]`, with audio mapped to
`[aout]` and video to `[vout]`.  `hm`/`hv` say the two fragments contain no
stray `';'`. -/
theorem C3_merge_scale_parallel (p : String) (numAudio numSub : Nat)
    (hA : numAudio ≠ 0) (tl : String) (htl : tl ≠ "")
    (sub re H : String)
    (hsub : selectedSubtitle numSub sub = none)
    (hre : pyLower re = "y")
    (hH : H ≠ "") (hHd : pyIsDigit H = true)
    (preset : Preset) (fidx : Nat)
    (hm : noSemi (mergeFilter (pySplit tl)).data = true)
    (hv : noSemi ("[0:v]" ++ ("scale=-1:" ++
      toString (digitsToNat H.data)) ++ "[vout]").data = true) :
    assemble p numAudio numSub ⟨"2", tl, sub, re, H⟩ preset fidx =
      .ok ⟨["-map", "[vout]", "-c:v", preset.codec] ++ presetArgs preset,
        ["-map", "[aout]", "-c:a", merged_audio_codec],
        some (mergeFilter (pySplit tl) ++ ";" ++
          ("[0:v]" ++ ("scale=-1:" ++
            toString (digitsToNat H.data)) ++ "[vout]"))⟩ ∧
    splitSemi (mergeFilter (pySplit tl) ++ ";" ++
        ("[0:v]" ++ ("scale=-1:" ++
          toString (digitsToNat H.data)) ++ "[vout]")).data =
      [(mergeFilter (pySplit tl)).data,
       ("[0:v]" ++ ("scale=-1:" ++
         toString (digitsToNat H.data)) ++ "[vout]").data] ∧
    listStartsWith ("[0:v]" ++ ("scale=-1:" ++
        toString (digitsToNat H.data)) ++ "[vout]").data
      ("[0:v]" : String).data = true := by
  have ha : audioStage numAudio ⟨"2", tl, sub, re, H⟩ fidx =
      .ok (["-map", "[aout]", "-c:a", merged_audio_codec],
        some (mergeFilter (pySplit tl))) := by
    simp [audioStage, hA, htl]
  have hres : H ≠ "" ∧ pyIsDigit H = true := ⟨hH, hHd⟩
  have hd : decide (pyLower re = "y") = true := by simp [hre]
  refine ⟨?_, ?_, ?_⟩
  · simp only [assemble, ha, subtitleStage, hsub, hd, Bool.or_true, if_true,
      reencodeStage, if_pos hres, mergeFilter_contains_aout,
      List.drop_succ_cons, List.drop_nil, List.append_nil]
    simp
  · have hgd : (mergeFilter (pySplit tl) ++ ";" ++
        ("[0:v]" ++ ("scale=-1:" ++
          toString (digitsToNat H.data)) ++ "[vout]")).data =
        (mergeFilter (pySplit tl)).data ++ ';' ::
          ("[0:v]" ++ ("scale=-1:" ++
            toString (digitsToNat H.data)) ++ "[vout]").data := by
      simp [String.data_append, List.append_assoc]
    rw [hgd, splitSemi_append _ _ (noSemi_forall hm),
      splitSemi_no_semi _ (noSemi_forall hv)]
  · have hfd : ("[0:v]" ++ ("scale=-1:" ++
        toString (digitsToNat H.data)) ++ "[vout]").data =
        ("[0:v]" : String).data ++ (("scale=-1:" ++
          toString (digitsToNat H.data)).data ++ ("[vout]" : String).data) := by
      simp [String.data_append, List.append_assoc]
    rw [hfd]
    exact listStartsWith_mono _ (listStartsWith_refl _)

/-- Claim C3 witness at a concrete input: merge of tracks 0 and 2, no
subtitles, reencode `y`, resolution 720. -/
theorem C3_witness :
    assemble "a" 3 0 ⟨"2", "0 2", "", "y", "720"⟩ DEFAULT_PRESET 0 =
      .ok ⟨["-map", "[vout]", "-c:v", DEFAULT_PRESET.codec] ++
          presetArgs DEFAULT_PRESET,
        ["-map", "[aout]", "-c:a", merged_audio_codec],
        some (mergeFilter (pySplit "0 2") ++ ";" ++
          ("[0:v]" ++ ("scale=-1:" ++
            toString (digitsToNat ("720" : String).data)) ++ "[vout]"))⟩ ∧
    splitSemi (mergeFilter (pySplit "0 2") ++ ";" ++
        ("[0:v]" ++ ("scale=-1:" ++
          toString (digitsToNat ("720" : String).data)) ++ "[vout]")).data =
      [(mergeFilter (pySplit "0 2")).data,
       ("[0:v]" ++ ("scale=-1:" ++
         toString (digitsToNat ("720" : String).data)) ++ "[vout]").data] ∧
    listStartsWith ("[0:v]" ++ ("scale=-1:" ++
        toString (digitsToNat ("720" : String).data)) ++ "[vout]").data
      ("[0:v]" : String).data = true :=
  C3_merge_scale_parallel "a" 3 0 (by decide) "0 2" (by decide) "" "y" "720"
    (by decide) (by decide) (by decide) (by decide) DEFAULT_PRESET 0
    (by decide) (by decide)

/-- Replacement of a single-character pattern acts independently on each
character. -/
theorem listReplace_singleton (c : Char) (rep : List Char) :
    ∀ l, listReplace l [c] rep =
      l.flatMap (fun x => if x = c then rep else [x]) := by
  intro l
  induction l with
  | nil => rfl
  | cons x t ih =>
    rw [listReplace_cons]
    by_cases hx : x = c
    · subst hx
      rw [if_pos ⟨by simp, by simp [listStartsWith]⟩]
      simp [ih]
    · rw [if_neg (by simp [listStartsWith, hx])]
      simp [ih, hx]

/-- The code's two sequential `replace` calls (backslash escaping first,
then colon escaping) equal the spec's one-pass character escaping. -/
theorem escapePath_eq_spec (p : String) : escapePath p = escapeSpec p := by
  apply string_ext
  show listReplace (listReplace p.data ['\\'] ['\\', '\\']) [':']
      ['\\', ':'] = escapeChars p.data
  rw [listReplace_singleton, listReplace_singleton]
  generalize p.data = l
  induction l with
  | nil => rfl
  | cons c t ih =>
    by_cases hb : c = '\\'
    · subst hb
      simp only [List.flatMap_cons, List.flatMap_append, escapeChars]
      simp [ih]
    · by_cases hc : c = ':'
      · subst hc
        simp only [List.flatMap_cons, List.flatMap_append, escapeChars]
        simp [ih]
      · simp only [List.flatMap_cons, List.flatMap_append, escapeChars]
        simp [ih, hb, hc]

/-- Claim C8: the path embedded in the subtitles filter expression is the
input path with every backslash doubled and every colon prefixed by a
backslash, the backslash pass applied before the colon pass; equivalently,
the code's sequential replaces equal the one-pass per-character escaping,
and the subtitle fragment embeds exactly that escaped path. -/
theorem C8_path_escaping (p : String) (k : Int) :
    escapePath p = escapeSpec p ∧
    subtitleFilter p k =
      "[0:v]subtitles=\x27" ++ escapeSpec p ++ "\x27:si=" ++
        toString k ++ "[vout]" := by
  have h := escapePath_eq_spec p
  refine ⟨h, ?_⟩
  unfold subtitleFilter
  rw [h]
